import Mathlib

/-!
Shallow embedding of `sms_wsj/database/database.py` (the `SmsWsj` accessor and
the `AudioReader` per-example transform) together with the parts of the
synchronization helper that the spec describes.

Numpy arrays are modelled as a flat row-major data list with an explicit shape;
waveform samples are modelled as integers (the claims are about structure,
placement and exact sums, not floating-point rounding).
-/

/-- A numpy ndarray: row-major flat `data` together with its `shape`. -/
structure NDArray where
  shape : List Nat
  data : List Int
deriving DecidableEq

/-- Row-major flat index of a multi-index `idx` with respect to `shape`. -/
def flattenIndex : List Nat → List Nat → Nat
  | _, [] => 0
  | [], _ => 0
  | _ :: ss, i :: rest => i * ss.prod + flattenIndex ss rest

/-- Multi-index of flat position `k` with respect to `shape` (row-major). -/
def unflattenIndex : List Nat → Nat → List Nat
  | [], _ => []
  | _ :: ss, k => (k / ss.prod) :: unflattenIndex ss (k % ss.prod)

/-- numpy `.T`: reverse the axis order (identity on 1-D data, matrix
transpose on 2-D data). -/
def NDArray.transpose (a : NDArray) : NDArray :=
  { shape := a.shape.reverse
    data := (List.range a.shape.reverse.prod).map (fun k =>
      a.data.getD (flattenIndex a.shape ((unflattenIndex a.shape.reverse k).reverse)) 0) }

/-- Left-pad a shape with `1`s up to length `n` (numpy broadcasting alignment). -/
def padShape (n : Nat) (s : List Nat) : List Nat :=
  List.replicate (n - s.length) 1 ++ s

/-- Broadcast two equal-length shapes dimension by dimension:
equal dimensions agree, a dimension of size 1 stretches, anything else fails. -/
def broadcastDims : List Nat → List Nat → Option (List Nat)
  | [], [] => some []
  | a :: as_, b :: bs =>
    match broadcastDims as_ bs with
    | none => none
    | some s =>
      if a = b then some (a :: s)
      else if a = 1 then some (b :: s)
      else if b = 1 then some (a :: s)
      else none
  | _, _ => none

/-- numpy broadcast of two shapes: right-align, pad with 1s, combine. -/
def broadcastShape (s t : List Nat) : Option (List Nat) :=
  broadcastDims (padShape (max s.length t.length) s) (padShape (max s.length t.length) t)

/-- Read the element of `a` that broadcasting selects at multi-index `idx`
(of length `n`): stretched dimensions always read index 0. -/
def NDArray.broadcastGet (a : NDArray) (n : Nat) (idx : List Nat) : Int :=
  a.data.getD
    (flattenIndex (padShape n a.shape)
      (List.zipWith (fun d i => if d = 1 then 0 else i) (padShape n a.shape) idx)) 0

/-- Errors that can arise while loading audio: a missing/unreadable file
(Python `soundfile` raises), or a numpy `ValueError` (ragged stack /
non-broadcastable operands). -/
inductive ReadErr where
  | ioError
  | valueError
deriving DecidableEq

/-- numpy `+` with broadcasting: fails (ValueError) when the shapes are not
broadcast-compatible, otherwise sums the broadcast-selected elements. -/
def NDArray.add (a b : NDArray) : Except ReadErr NDArray :=
  match broadcastShape a.shape b.shape with
  | none => .error .valueError
  | some s =>
    .ok { shape := s
          data := (List.range s.prod).map (fun k =>
            a.broadcastGet s.length (unflattenIndex s k)
              + b.broadcastGet s.length (unflattenIndex s k)) }

/-!
File references. The Python code dispatches dynamically on
`isinstance(file, (tuple, list))` / `isinstance(file, dict)` / a plain path;
we encode that as a tagged tree (mutual inductives so that structural
recursion and induction stay simple).
-/

mutual
inductive FileTree where
  | leaf (f : String) : FileTree
  | seq (l : FileTreeList) : FileTree
  | mapping (m : FileTreeMap) : FileTree
inductive FileTreeList where
  | nil : FileTreeList
  | cons (hd : FileTree) (tl : FileTreeList) : FileTreeList
inductive FileTreeMap where
  | nil : FileTreeMap
  | cons (k : String) (v : FileTree) (tl : FileTreeMap) : FileTreeMap
end

/-- Number of elements of a sequence of file references. -/
def FileTreeList.length : FileTreeList → Nat
  | .nil => 0
  | .cons _ tl => 1 + tl.length

/-- The file system: maps a path to the file-native waveform array
(`soundfile.read` storage order `(samples, channels)`, or 1-D for mono),
or `none` when the file is missing/unreadable. -/
abbrev FileSystem : Type := String → Option NDArray

/-- The result of `AudioReader._rec_audio_read`: an ndarray, or (for a dict of
sub-streams) a mapping from keys to recursively loaded results. -/
inductive AudioData where
  | arr (a : NDArray) : AudioData
  | dict (m : List (String × AudioData)) : AudioData

/-- Interpret a list of recursively loaded elements as ndarrays
(`np.array([...])` only stacks plain arrays). -/
def toArrs : List AudioData → Option (List NDArray)
  | [] => some []
  | .arr a :: rest =>
    match toArrs rest with
    | some l => some (a :: l)
    | none => none
  | .dict _ :: _ => none

/-- `np.array([...])` over loaded elements: an empty list gives the empty
array of shape `(0,)`; equal-shaped arrays stack into a new leading
dimension; a ragged or non-array list raises (ValueError). -/
def npStack (ds : List AudioData) : Option NDArray :=
  match toArrs ds with
  | none => none
  | some [] => some ⟨[0], []⟩
  | some (a :: rest) =>
    if rest.all (fun b => decide (b.shape = a.shape)) then
      some ⟨(a :: rest).length :: a.shape, ((a :: rest).map NDArray.data).flatten⟩
    else none

mutual
/-- `AudioReader._rec_audio_read`: a path reads the file and transposes
(`data.T`); a tuple/list recursively reads each element and stacks them with
`np.array`; a dict recursively reads each value, keeping the keys. -/
def rec_audio_read (fs : FileSystem) : FileTree → Except ReadErr AudioData
  | .leaf f =>
    match fs f with
    | some native => .ok (.arr native.transpose)
    | none => .error .ioError
  | .seq l =>
    match rec_read_list fs l with
    | .error e => .error e
    | .ok ds =>
      match npStack ds with
      | some a => .ok (.arr a)
      | none => .error .valueError
  | .mapping m =>
    match rec_read_map fs m with
    | .error e => .error e
    | .ok kvs => .ok (.dict kvs)

def rec_read_list (fs : FileSystem) : FileTreeList → Except ReadErr (List AudioData)
  | .nil => .ok []
  | .cons hd tl =>
    match rec_audio_read fs hd with
    | .error e => .error e
    | .ok d =>
      match rec_read_list fs tl with
      | .error e => .error e
      | .ok ds => .ok (d :: ds)

def rec_read_map (fs : FileSystem) : FileTreeMap → Except ReadErr (List (String × AudioData))
  | .nil => .ok []
  | .cons k v tl =>
    match rec_audio_read fs v with
    | .error e => .error e
    | .ok d =>
      match rec_read_map fs tl with
      | .error e => .error e
      | .ok ds => .ok ((k, d) :: ds)
end

/-!
The `AudioReader` dataclass: boolean stream-selection flags, with
`__post_init__` forcing the reverberation components on when the speech
image is requested.
-/

structure AudioReader where
  observation : Bool := true
  speech_source : Bool := true
  sync_speech_source : Bool := true
  speech_reverberation_early : Bool := true
  speech_reverberation_tail : Bool := true
  speech_image : Bool := true
  noise_image : Bool := true
  rir : Bool := false
deriving DecidableEq

/-- `AudioReader.__post_init__`: dataclass construction runs this after
field assignment. -/
def post_init (r : AudioReader) : AudioReader :=
  if r.speech_image then
    { r with speech_reverberation_early := true, speech_reverberation_tail := true }
  else r

/-- Errors of the per-example transform: a propagated read error, a Python
`KeyError` (dict lookup misses), or a `TypeError` (adding non-arrays). -/
inductive Err where
  | read (e : ReadErr)
  | keyError
  | typeError
deriving DecidableEq

/-- The `data` dict that `AudioReader.__call__` fills, in insertion order. -/
abbrev Bundle : Type := List (String × AudioData)

/-- Modelled from the spec: one output row of the Synchronizer
(`synchronize_speech_source` from `sms_wsj/database/utils.py`, whose source is
not part of the provided files). For a source `x` of length `L`, offset `o`
and target length `T`: with `lo = max 0 (-o)` and `hi = min L (T - o)`, the
slice `x[lo:hi]` is placed at output positions `[o+lo, o+hi)`, all other
positions are zero, and if `hi ≤ lo` the row is all zeros without error. -/
def syncRow (x : List Int) (o : Int) (T : Nat) : List Int :=
  let L : Int := (x.length : Int)
  let lo : Int := max 0 (-o)
  let hi : Int := min L ((T : Int) - o)
  if hi ≤ lo then List.replicate T 0
  else
    List.replicate (o + lo).toNat 0
      ++ (x.drop lo.toNat).take (hi - lo).toNat
      ++ List.replicate (T - (o + hi).toNat) 0

/-- Modelled from the spec: the Synchronizer contract
`synchronize(sources, offsets, target_length) -> Array[num_speakers, target_length]`
(`sms_wsj/database/utils.py` is not part of the provided files). The stated
precondition is `len(sources) == len(offsets)`. -/
def synchronize_speech_source (sources : List (List Int)) (offset : List Int) (T : Nat) :
    List (List Int) :=
  (sources.zip offset).map (fun p => syncRow p.1 p.2 T)

/-- Iterating a numpy array yields its sub-arrays along the leading axis;
here flattened to rows of the trailing dimensions. -/
def NDArray.rows (a : NDArray) : List (List Int) :=
  match a.shape with
  | [] => []
  | n :: rest => (List.range n).map (fun i => (a.data.drop (i * rest.prod)).take rest.prod)

/-- Reassemble synchronizer rows (each of length `T`) into the
`(num_speakers, target_length)` array of the Synchronizer contract. -/
def ofRows (rs : List (List Int)) (T : Nat) : NDArray :=
  ⟨[rs.length, T], rs.flatten⟩

/-- Modelled from the spec: applying the Synchronizer to the loaded
`speech_source` data. A loaded dict cannot be synchronized (TypeError). -/
def syncAudio (d : AudioData) (offset : List Int) (T : Nat) : Except Err AudioData :=
  match d with
  | .arr a => .ok (.arr (ofRows (synchronize_speech_source a.rows offset T) T))
  | .dict _ => .error .typeError

/-!
The per-example transform `AudioReader.__call__`. The example record: the
relevant fields of the catalog's example dict. Other original fields are
kept abstract in `meta` (the transform never touches them).
-/

/-- The `example['audio_path']` sub-dict: one file-reference tree per
stream kind. -/
structure AudioPath where
  observation : FileTree
  speech_source : FileTree
  speech_reverberation_early : FileTree
  speech_reverberation_tail : FileTree
  noise_image : FileTree
  rir : FileTree

/-- An example record (the fields `AudioReader.__call__` reads or writes,
plus untouched metadata). `audio_data` is `none` for a fresh catalog record. -/
structure Example where
  audio_path : AudioPath
  offset : List Int
  num_samples_observation : Nat
  num_samples_speech_source : List Nat
  num_speakers : Nat
  meta : List (String × String)
  audio_data : Option Bundle

/-- `if self.observation: data['observation'] = self._rec_audio_read(path['observation'])`. -/
def stepObservation (r : AudioReader) (fs : FileSystem) (ex : Example) (data : Bundle) :
    Except Err Bundle :=
  if r.observation then
    match rec_audio_read fs ex.audio_path.observation with
    | .ok a => .ok (data ++ [("observation", a)])
    | .error e => .error (.read e)
  else .ok data

/-- `if self.speech_source: ...` — load the dry sources and, when
`sync_speech_source` is set, pass them through the Synchronizer with the
example's `offset` and `num_samples['observation']`. -/
def stepSpeechSource (r : AudioReader) (fs : FileSystem) (ex : Example) (data : Bundle) :
    Except Err Bundle :=
  if r.speech_source then
    match rec_audio_read fs ex.audio_path.speech_source with
    | .ok a =>
      if r.sync_speech_source then
        match syncAudio a ex.offset ex.num_samples_observation with
        | .ok a2 => .ok (data ++ [("speech_source", a2)])
        | .error e => .error e
      else .ok (data ++ [("speech_source", a)])
    | .error e => .error (.read e)
  else .ok data

/-- `if self.speech_reverberation_early: ...`. -/
def stepEarly (r : AudioReader) (fs : FileSystem) (ex : Example) (data : Bundle) :
    Except Err Bundle :=
  if r.speech_reverberation_early then
    match rec_audio_read fs ex.audio_path.speech_reverberation_early with
    | .ok a => .ok (data ++ [("speech_reverberation_early", a)])
    | .error e => .error (.read e)
  else .ok data

/-- `if self.speech_reverberation_tail: ...`. -/
def stepTail (r : AudioReader) (fs : FileSystem) (ex : Example) (data : Bundle) :
    Except Err Bundle :=
  if r.speech_reverberation_tail then
    match rec_audio_read fs ex.audio_path.speech_reverberation_tail with
    | .ok a => .ok (data ++ [("speech_reverberation_tail", a)])
    | .error e => .error (.read e)
  else .ok data

/-- `if self.speech_image: data['speech_image'] = data['speech_reverberation_early']
+ data['speech_reverberation_tail']` — dict lookups (KeyError when absent),
then numpy `+` (broadcasting; ValueError when incompatible; TypeError when an
operand is not an array). -/
def stepSpeechImage (r : AudioReader) (data : Bundle) : Except Err Bundle :=
  if r.speech_image then
    match List.lookup "speech_reverberation_early" data,
          List.lookup "speech_reverberation_tail" data with
    | some (.arr e), some (.arr t) =>
      match NDArray.add e t with
      | .ok img => .ok (data ++ [("speech_image", .arr img)])
      | .error er => .error (.read er)
    | none, _ => .error .keyError
    | _, none => .error .keyError
    | _, _ => .error .typeError
  else .ok data

/-- `if self.noise_image: ...`. -/
def stepNoise (r : AudioReader) (fs : FileSystem) (ex : Example) (data : Bundle) :
    Except Err Bundle :=
  if r.noise_image then
    match rec_audio_read fs ex.audio_path.noise_image with
    | .ok a => .ok (data ++ [("noise_image", a)])
    | .error e => .error (.read e)
  else .ok data

/-- `if self.rir: ...`. -/
def stepRir (r : AudioReader) (fs : FileSystem) (ex : Example) (data : Bundle) :
    Except Err Bundle :=
  if r.rir then
    match rec_audio_read fs ex.audio_path.rir with
    | .ok a => .ok (data ++ [("rir", a)])
    | .error e => .error (.read e)
  else .ok data

/-- Sequencing of the transform's statements: a raised error aborts the call. -/
def andThen (x : Except Err Bundle) (f : Bundle → Except Err Bundle) : Except Err Bundle :=
  match x with
  | .error e => .error e
  | .ok d => f d

/-- The body of `AudioReader.__call__` that fills the fresh `data = {}` dict,
in the source's statement order. -/
def buildData (r : AudioReader) (fs : FileSystem) (ex : Example) : Except Err Bundle :=
  andThen (stepObservation r fs ex []) fun d1 =>
  andThen (stepSpeechSource r fs ex d1) fun d2 =>
  andThen (stepEarly r fs ex d2) fun d3 =>
  andThen (stepTail r fs ex d3) fun d4 =>
  andThen (stepSpeechImage r d4) fun d5 =>
  andThen (stepNoise r fs ex d5) fun d6 =>
  stepRir r fs ex d6

/-- `AudioReader.__call__`: Python dicts are heap objects, so the example is
modelled as an address into a store of records. The final statement
`example['audio_data'] = data; return example` updates the record in place
and returns the same reference. -/
def AudioReader.call (r : AudioReader) (fs : FileSystem) (store : Nat → Example)
    (addr : Nat) : Except Err ((Nat → Example) × Nat) :=
  match buildData r fs (store addr) with
  | .error e => .error e
  | .ok data =>
    .ok (fun a => if a = addr then { store addr with audio_data := some data } else store a,
         addr)

/-!
The `SmsWsj` accessor: only its construction-time configuration logic is in
scope (the catalog itself is the excluded collaborator).
-/

/-- The process environment, as seen by `os.environ[...]`. -/
abbrev Env : Type := String → Option String

/-- A constructed `SmsWsj` database accessor (the resolved catalog path that
`super().__init__` receives). -/
structure SmsWsj where
  json_path : String
deriving DecidableEq

/-- Construction-time configuration failure kind (Python raises `ValueError`
from the `KeyError`; the spec calls the kind `ConfigurationError`). -/
inductive ConfigError where
  | configurationError
deriving DecidableEq

/-- `SmsWsj.default_json_path`: read `os.environ['SMS_WSJ_JSON']`; a missing
variable raises. -/
def default_json_path (env : Env) : Except ConfigError String :=
  match env "SMS_WSJ_JSON" with
  | some p => .ok p
  | none => .error .configurationError

/-- `SmsWsj.__init__(json_path=None)`: fall back to `default_json_path`
when no explicit path is given. -/
def SmsWsj.init (env : Env) (json_path : Option String) : Except ConfigError SmsWsj :=
  match json_path with
  | some p => .ok ⟨p⟩
  | none =>
    match default_json_path env with
    | .ok p => .ok ⟨p⟩
    | .error e => .error e

/-!
Helper lemmas: association-list lookups, sequencing, and the shared shape of
the loading steps.
-/

theorem lookup_append_of_some {α β : Type} [BEq α] {k : α} {xs ys : List (α × β)} {v : β}
    (h : List.lookup k xs = some v) : List.lookup k (xs ++ ys) = some v := by
  induction xs with
  | nil => simp [List.lookup] at h
  | cons p xs ih =>
    obtain ⟨a, b⟩ := p
    simp only [List.lookup, List.cons_append] at h ⊢
    cases hk : k == a with
    | true => rw [hk] at h; exact h
    | false => rw [hk] at h; exact ih h

theorem lookup_append_of_none {α β : Type} [BEq α] {k : α} {xs ys : List (α × β)}
    (h : List.lookup k xs = none) : List.lookup k (xs ++ ys) = List.lookup k ys := by
  induction xs with
  | nil => simp
  | cons p xs ih =>
    obtain ⟨a, b⟩ := p
    simp only [List.lookup, List.cons_append] at h ⊢
    cases hk : k == a with
    | true => rw [hk] at h; exact absurd h (by simp)
    | false => rw [hk] at h; exact ih h

theorem lookup_append_single_ne {α β : Type} [BEq α] {k k2 : α} {xs : List (α × β)} {v : β}
    (h : (k == k2) = false) : List.lookup k (xs ++ [(k2, v)]) = List.lookup k xs := by
  cases hx : List.lookup k xs with
  | some w => exact lookup_append_of_some hx
  | none => rw [lookup_append_of_none hx]; simp [List.lookup, h]

theorem lookup_append_single_self {α β : Type} [BEq α] [LawfulBEq α] {k : α}
    {xs : List (α × β)} {v : β} : ∃ w, List.lookup k (xs ++ [(k, v)]) = some w := by
  cases hx : List.lookup k xs with
  | some w => exact ⟨w, lookup_append_of_some hx⟩
  | none => exact ⟨v, by rw [lookup_append_of_none hx]; simp [List.lookup]⟩

theorem lookup_of_forall_ne {α β : Type} [BEq α] [LawfulBEq α] {k : α} {xs : List (α × β)}
    (h : ∀ p ∈ xs, p.1 ≠ k) : List.lookup k xs = none := by
  induction xs with
  | nil => simp
  | cons p xs ih =>
    obtain ⟨a, b⟩ := p
    have ha : a ≠ k := h (a, b) (by simp)
    simp only [List.lookup]
    cases hk : k == a with
    | true => exact absurd (eq_of_beq hk).symm ha
    | false => exact ih (fun q hq => h q (by simp [hq]))

theorem andThen_ok {x : Except Err Bundle} {f : Bundle → Except Err Bundle} {y : Bundle}
    (h : andThen x f = .ok y) : ∃ d, x = .ok d ∧ f d = .ok y := by
  cases x with
  | error e => simp [andThen] at h
  | ok d => exact ⟨d, rfl, h⟩

theorem andThen_error {x : Except Err Bundle} {f : Bundle → Except Err Bundle} {e : Err}
    (h : andThen x f = .error e) : x = .error e ∨ ∃ d, x = .ok d ∧ f d = .error e := by
  cases x with
  | error e0 => left; simpa [andThen] using h
  | ok d => exact .inr ⟨d, rfl, h⟩

/-- The common shape of the five plain loading statements. -/
def genStep (flag : Bool) (key : String) (res : Except ReadErr AudioData) (data : Bundle) :
    Except Err Bundle :=
  if flag then
    match res with
    | .ok a => .ok (data ++ [(key, a)])
    | .error e => .error (.read e)
  else .ok data

theorem stepObservation_eq (r : AudioReader) (fs : FileSystem) (ex : Example) (data : Bundle) :
    stepObservation r fs ex data
      = genStep r.observation "observation" (rec_audio_read fs ex.audio_path.observation) data :=
  rfl

theorem stepEarly_eq (r : AudioReader) (fs : FileSystem) (ex : Example) (data : Bundle) :
    stepEarly r fs ex data
      = genStep r.speech_reverberation_early "speech_reverberation_early"
          (rec_audio_read fs ex.audio_path.speech_reverberation_early) data :=
  rfl

theorem stepTail_eq (r : AudioReader) (fs : FileSystem) (ex : Example) (data : Bundle) :
    stepTail r fs ex data
      = genStep r.speech_reverberation_tail "speech_reverberation_tail"
          (rec_audio_read fs ex.audio_path.speech_reverberation_tail) data :=
  rfl

theorem stepNoise_eq (r : AudioReader) (fs : FileSystem) (ex : Example) (data : Bundle) :
    stepNoise r fs ex data
      = genStep r.noise_image "noise_image" (rec_audio_read fs ex.audio_path.noise_image) data :=
  rfl

theorem stepRir_eq (r : AudioReader) (fs : FileSystem) (ex : Example) (data : Bundle) :
    stepRir r fs ex data
      = genStep r.rir "rir" (rec_audio_read fs ex.audio_path.rir) data :=
  rfl

theorem genStep_ok_cases {flag key res data d'} (h : genStep flag key res data = .ok d') :
    d' = data ∨ ∃ v, res = .ok v ∧ d' = data ++ [(key, v)] := by
  unfold genStep at h
  cases flag with
  | false => simp at h; exact .inl h.symm
  | true =>
    cases res with
    | error e => simp at h
    | ok v => simp at h; exact .inr ⟨v, rfl, h.symm⟩

theorem genStep_ok_true {flag key res data d'} (hf : flag = true)
    (h : genStep flag key res data = .ok d') :
    ∃ v, res = .ok v ∧ d' = data ++ [(key, v)] := by
  subst hf
  unfold genStep at h
  cases res with
  | error e => simp at h
  | ok v => simp at h; exact ⟨v, rfl, h.symm⟩

theorem genStep_error {flag key res data e} (h : genStep flag key res data = .error e) :
    flag = true ∧ ∃ re, e = .read re ∧ res = .error re := by
  unfold genStep at h
  cases flag with
  | false => simp at h
  | true =>
    cases res with
    | error e0 => simp at h; exact ⟨rfl, e0, h.symm, rfl⟩
    | ok v => simp at h

theorem genStep_of_ok {flag key res data} (hf : flag = true) {v} (hr : res = .ok v) :
    genStep flag key res data = .ok (data ++ [(key, v)]) := by
  subst hf; subst hr; rfl

theorem genStep_of_false {flag key res data} (hf : flag = false) :
    genStep flag key res data = .ok data := by
  subst hf; rfl

theorem stepSpeechSource_ok_cases {r fs ex data d'} (h : stepSpeechSource r fs ex data = .ok d') :
    d' = data ∨ ∃ v, d' = data ++ [("speech_source", v)] := by
  unfold stepSpeechSource at h
  cases hf : r.speech_source with
  | false => rw [hf] at h; simp at h; exact .inl h.symm
  | true =>
    rw [hf] at h; simp only [if_true] at h
    cases hr : rec_audio_read fs ex.audio_path.speech_source with
    | error e => rw [hr] at h; simp at h
    | ok a =>
      rw [hr] at h
      cases hs : r.sync_speech_source with
      | false => rw [hs] at h; simp at h; exact .inr ⟨a, h.symm⟩
      | true =>
        rw [hs] at h; simp only [if_true] at h
        cases hsy : syncAudio a ex.offset ex.num_samples_observation with
        | error e => rw [hsy] at h; simp at h
        | ok a2 => rw [hsy] at h; simp at h; exact .inr ⟨a2, h.symm⟩

theorem stepSpeechSource_error_ne_key {r fs ex data e}
    (h : stepSpeechSource r fs ex data = .error e) : e ≠ .keyError := by
  unfold stepSpeechSource at h
  cases hf : r.speech_source with
  | false => rw [hf] at h; simp at h
  | true =>
    rw [hf] at h; simp only [if_true] at h
    cases hr : rec_audio_read fs ex.audio_path.speech_source with
    | error e0 => rw [hr] at h; simp at h; simp [← h]
    | ok a =>
      rw [hr] at h
      cases hs : r.sync_speech_source with
      | false => rw [hs] at h; simp at h
      | true =>
        rw [hs] at h; simp only [if_true] at h
        cases hsy : syncAudio a ex.offset ex.num_samples_observation with
        | error e0 =>
          rw [hsy] at h; simp at h
          cases a with
          | arr a0 => simp [syncAudio] at hsy
          | dict m => simp [syncAudio] at hsy; simp [← h, ← hsy]
        | ok a2 => rw [hsy] at h; simp at h

theorem stepSpeechSource_of_sync {r : AudioReader} {fs ex data} {a : NDArray}
    (hf : r.speech_source = true) (hs : r.sync_speech_source = true)
    (hr : rec_audio_read fs ex.audio_path.speech_source = .ok (.arr a)) :
    stepSpeechSource r fs ex data
      = .ok (data ++ [("speech_source",
          .arr (ofRows (synchronize_speech_source a.rows ex.offset ex.num_samples_observation)
            ex.num_samples_observation))]) := by
  unfold stepSpeechSource
  rw [hf, hr, hs]
  simp [syncAudio]

theorem stepSpeechImage_ok_cases {r data d'} (h : stepSpeechImage r data = .ok d') :
    d' = data ∨ ∃ v, d' = data ++ [("speech_image", v)] := by
  unfold stepSpeechImage at h
  cases hf : r.speech_image with
  | false => rw [hf] at h; simp at h; exact .inl h.symm
  | true =>
    rw [hf] at h; simp only [if_true] at h
    cases he : List.lookup "speech_reverberation_early" data with
    | none => rw [he] at h; simp at h
    | some de =>
      cases ht : List.lookup "speech_reverberation_tail" data with
      | none =>
        rw [he, ht] at h
        cases de with
        | arr e0 => simp at h
        | dict m => simp at h
      | some dt =>
        rw [he, ht] at h
        cases de with
        | dict m => cases dt <;> simp at h
        | arr e0 =>
          cases dt with
          | dict m => simp at h
          | arr t0 =>
            simp only [] at h
            cases ha : NDArray.add e0 t0 with
            | error e1 => rw [ha] at h; simp at h
            | ok img => rw [ha] at h; simp at h; exact .inr ⟨.arr img, h.symm⟩

theorem stepSpeechImage_of_false {r : AudioReader} {data} (hf : r.speech_image = false) :
    stepSpeechImage r data = .ok data := by
  unfold stepSpeechImage; rw [hf]; simp

theorem stepSpeechImage_ne_key_of_lookups {r : AudioReader} {data} {de dt : AudioData}
    (he : List.lookup "speech_reverberation_early" data = some de)
    (ht : List.lookup "speech_reverberation_tail" data = some dt) :
    stepSpeechImage r data ≠ .error .keyError := by
  unfold stepSpeechImage
  cases hf : r.speech_image with
  | false => simp
  | true =>
    simp only [if_true]
    rw [he, ht]
    cases de with
    | dict m => cases dt <;> simp
    | arr e0 =>
      cases dt with
      | dict m => simp
      | arr t0 =>
        simp only []
        cases ha : NDArray.add e0 t0 with
        | error e1 => simp
        | ok img => simp

theorem stepSpeechImage_ok_true {r : AudioReader} {data d'} (hf : r.speech_image = true)
    (h : stepSpeechImage r data = .ok d') :
    ∃ e t img, List.lookup "speech_reverberation_early" data = some (.arr e)
      ∧ List.lookup "speech_reverberation_tail" data = some (.arr t)
      ∧ NDArray.add e t = .ok img
      ∧ d' = data ++ [("speech_image", .arr img)] := by
  unfold stepSpeechImage at h
  rw [hf] at h; simp only [if_true] at h
  cases he : List.lookup "speech_reverberation_early" data with
  | none => rw [he] at h; simp at h
  | some de =>
    cases ht : List.lookup "speech_reverberation_tail" data with
    | none =>
      rw [he, ht] at h
      cases de with
      | arr e0 => simp at h
      | dict m => simp at h
    | some dt =>
      rw [he, ht] at h
      cases de with
      | dict m => cases dt <;> simp at h
      | arr e0 =>
        cases dt with
        | dict m => simp at h
        | arr t0 =>
          simp only [] at h
          cases ha : NDArray.add e0 t0 with
          | error e1 => rw [ha] at h; simp at h
          | ok img => rw [ha] at h; simp at h; exact ⟨e0, t0, img, rfl, rfl, ha, h.symm⟩

theorem buildData_ok_decomp {r fs ex data} (h : buildData r fs ex = .ok data) :
    ∃ d1 d2 d3 d4 d5 d6,
      stepObservation r fs ex [] = .ok d1
      ∧ stepSpeechSource r fs ex d1 = .ok d2
      ∧ stepEarly r fs ex d2 = .ok d3
      ∧ stepTail r fs ex d3 = .ok d4
      ∧ stepSpeechImage r d4 = .ok d5
      ∧ stepNoise r fs ex d5 = .ok d6
      ∧ stepRir r fs ex d6 = .ok data := by
  unfold buildData at h
  obtain ⟨d1, h1, h⟩ := andThen_ok h
  obtain ⟨d2, h2, h⟩ := andThen_ok h
  obtain ⟨d3, h3, h⟩ := andThen_ok h
  obtain ⟨d4, h4, h⟩ := andThen_ok h
  obtain ⟨d5, h5, h⟩ := andThen_ok h
  obtain ⟨d6, h6, h⟩ := andThen_ok h
  exact ⟨d1, d2, d3, d4, d5, d6, h1, h2, h3, h4, h5, h6, h⟩

/-!
Index arithmetic for the numpy model: round-trips between flat and
multi-indices, and the behaviour of broadcasting on equal shapes.
-/

theorem flattenIndex_unflattenIndex : ∀ (s : List Nat) (k : Nat), k < s.prod →
    flattenIndex s (unflattenIndex s k) = k := by
  intro s
  induction s with
  | nil =>
    intro k hk
    simp only [List.prod_nil, Nat.lt_one_iff] at hk
    simp [unflattenIndex, flattenIndex, hk]
  | cons a ss ih =>
    intro k hk
    simp only [unflattenIndex, flattenIndex]
    have hp : 0 < ss.prod := by
      rcases Nat.eq_zero_or_pos ss.prod with h0 | h0
      · rw [List.prod_cons, h0, Nat.mul_zero] at hk; omega
      · exact h0
    rw [ih _ (Nat.mod_lt _ hp), Nat.mul_comm]
    exact Nat.div_add_mod k ss.prod

theorem mask_unflatten : ∀ (s : List Nat) (k : Nat), k < s.prod →
    List.zipWith (fun d i => if d = 1 then 0 else i) s (unflattenIndex s k)
      = unflattenIndex s k := by
  intro s
  induction s with
  | nil => intro k hk; simp [unflattenIndex]
  | cons a ss ih =>
    intro k hk
    have hp : 0 < ss.prod := by
      rcases Nat.eq_zero_or_pos ss.prod with h0 | h0
      · rw [List.prod_cons, h0, Nat.mul_zero] at hk; omega
      · exact h0
    simp only [unflattenIndex, List.zipWith]
    rw [ih _ (Nat.mod_lt _ hp)]
    rcases eq_or_ne a 1 with ha | ha
    · subst ha
      rw [List.prod_cons, Nat.one_mul] at hk
      simp [Nat.div_eq_of_lt hk]
    · simp [ha]

theorem broadcastDims_self : ∀ s : List Nat, broadcastDims s s = some s := by
  intro s
  induction s with
  | nil => rfl
  | cons a ss ih => simp [broadcastDims, ih]

theorem padShape_self (s : List Nat) : padShape s.length s = s := by
  simp [padShape]

theorem broadcastShape_self (s : List Nat) : broadcastShape s s = some s := by
  unfold broadcastShape
  rw [Nat.max_self, padShape_self, broadcastDims_self]

theorem broadcastGet_of_shape_eq {a : NDArray} {s : List Nat} {k : Nat}
    (hs : a.shape = s) (hk : k < s.prod) :
    a.broadcastGet s.length (unflattenIndex s k) = a.data.getD k 0 := by
  unfold NDArray.broadcastGet
  rw [hs, padShape_self, mask_unflatten s k hk, flattenIndex_unflattenIndex s k hk]

/-- On equal shapes, numpy `+` is the elementwise sum (no broadcasting). -/
theorem add_of_shape_eq {a b : NDArray} (h : a.shape = b.shape) :
    NDArray.add a b
      = .ok ⟨a.shape, (List.range a.shape.prod).map
          (fun k => a.data.getD k 0 + b.data.getD k 0)⟩ := by
  unfold NDArray.add
  rw [← h, broadcastShape_self]
  have hmap : (List.range a.shape.prod).map
        (fun k => a.broadcastGet a.shape.length (unflattenIndex a.shape k)
          + b.broadcastGet a.shape.length (unflattenIndex a.shape k))
      = (List.range a.shape.prod).map (fun k => a.data.getD k 0 + b.data.getD k 0) := by
    apply List.map_congr_left
    intro k hk
    rw [List.mem_range] at hk
    rw [broadcastGet_of_shape_eq rfl hk, broadcastGet_of_shape_eq h.symm hk]
  exact congrArg Except.ok (congrArg (NDArray.mk a.shape) hmap)

theorem getD_range_map {f : Nat → Int} {n k : Nat} (hk : k < n) :
    ((List.range n).map f).getD k 0 = f k := by
  rw [List.getD_eq_getElem _ _ (by simpa using hk)]
  simp

/-!
List access helpers for the Synchronizer placement proof.
-/

theorem getD_append_left {xs ys : List Int} {k : Nat} (h : k < xs.length) :
    (xs ++ ys).getD k 0 = xs.getD k 0 := by
  rw [List.getD_eq_getElem _ _ (by simp; omega), List.getElem_append_left h,
    List.getD_eq_getElem _ _ h]

theorem getD_append_right {xs ys : List Int} {k : Nat} (h : xs.length ≤ k) :
    (xs ++ ys).getD k 0 = ys.getD (k - xs.length) 0 := by
  rcases Nat.lt_or_ge k (xs.length + ys.length) with hk | hk
  · rw [List.getD_eq_getElem _ _ (by simp; omega), List.getElem_append_right h,
      List.getD_eq_getElem _ _ (by omega)]
  · rw [List.getD_eq_default _ _ (by simp; omega), List.getD_eq_default _ _ (by omega)]

theorem getD_replicate_zero {n k : Nat} : (List.replicate n (0 : Int)).getD k 0 = 0 := by
  rcases Nat.lt_or_ge k n with hk | hk
  · rw [List.getD_eq_getElem _ _ (by simpa), List.getElem_replicate]
  · rw [List.getD_eq_default _ _ (by simpa)]

theorem getD_take_drop {x : List Int} {a b i : Nat} (hi : i < b) (hx : a + i < x.length) :
    ((x.drop a).take b).getD i 0 = x.getD (a + i) 0 := by
  rw [List.getD_eq_getElem _ _ (by simp; omega), List.getElem_take, List.getElem_drop,
    List.getD_eq_getElem _ _ hx]

/-!
Characterization of the Synchronizer's row placement.
-/

theorem syncRow_length (x : List Int) (o : Int) (T : Nat) : (syncRow x o T).length = T := by
  simp only [syncRow]
  split
  next hc => simp
  next hc =>
    simp only [List.length_append, List.length_replicate, List.length_take, List.length_drop]
    omega

theorem syncRow_all_zero (x : List Int) (o : Int) (T : Nat)
    (h : min ((x.length : Int)) ((T : Int) - o) ≤ max 0 (-o)) :
    syncRow x o T = List.replicate T 0 := by
  simp only [syncRow]
  rw [if_pos h]

theorem syncRow_getD (x : List Int) (o : Int) (T : Nat) (t : Nat) (ht : t < T) :
    (syncRow x o T).getD t 0 =
      if o + max 0 (-o) ≤ (t : Int) ∧ (t : Int) < o + min ((x.length : Int)) ((T : Int) - o)
      then x.getD (((t : Int) - o)).toNat 0 else 0 := by
  simp only [syncRow]
  split
  next hc =>
    have hn : ¬(o + max 0 (-o) ≤ (t : Int)
        ∧ (t : Int) < o + min ((x.length : Int)) ((T : Int) - o)) := by omega
    rw [if_neg hn, getD_replicate_zero]
  next hc =>
    rw [List.append_assoc]
    by_cases h1 : (t : Int) < o + max 0 (-o)
    · rw [getD_append_left (by simp only [List.length_replicate]; omega),
        getD_replicate_zero, if_neg (by omega)]
    · rw [getD_append_right (by simp only [List.length_replicate]; omega)]
      by_cases h2 : (t : Int) < o + min ((x.length : Int)) ((T : Int) - o)
      · rw [getD_append_left
          (by simp only [List.length_take, List.length_drop, List.length_replicate]; omega)]
        rw [getD_take_drop (by simp only [List.length_replicate]; omega)
          (by simp only [List.length_replicate]; omega)]
        rw [if_pos (by omega)]
        have hidx : (max 0 (-o)).toNat
            + (t - (List.replicate (o + max 0 (-o)).toNat (0 : Int)).length)
            = (((t : Int) - o)).toNat := by
          simp only [List.length_replicate]; omega
        rw [hidx]
      · rw [getD_append_right
          (by simp only [List.length_take, List.length_drop, List.length_replicate]; omega)]
        rw [getD_replicate_zero, if_neg (by omega)]

/-!
Structural fidelity of the recursive loader: the shape of a loaded result
follows the shape of the file-reference tree.
-/

mutual
/-- What the spec promises about a successfully loaded tree: a leaf becomes
the channel-major transpose of the file-native array (shape reversed); a
sequence becomes an array whose new leading dimension is the sequence length,
stacked from recursively matching parts; a mapping keeps its keys, each value
recursively matching. -/
def Matches (fs : FileSystem) : FileTree → AudioData → Prop
  | .leaf f, d => ∃ native, fs f = some native ∧ d = .arr native.transpose
      ∧ native.transpose.shape = native.shape.reverse
  | .seq l, d => ∃ (parts : List NDArray) (s : List Nat),
      MatchesSeq fs l parts ∧ parts.length = l.length
      ∧ (∀ p ∈ parts, p.shape = s)
      ∧ d = .arr ⟨parts.length :: s, (parts.map NDArray.data).flatten⟩
  | .mapping m, d => ∃ kvs, d = .dict kvs ∧ MatchesMap fs m kvs

/-- Pointwise matching of a sequence's elements with stacked array parts. -/
def MatchesSeq (fs : FileSystem) : FileTreeList → List NDArray → Prop
  | .nil, [] => True
  | .cons hd tl, a :: rest => Matches fs hd (.arr a) ∧ MatchesSeq fs tl rest
  | _, _ => False

/-- Pointwise matching of a mapping's entries: identical keys in order, and
recursively matching values. -/
def MatchesMap (fs : FileSystem) : FileTreeMap → List (String × AudioData) → Prop
  | .nil, [] => True
  | .cons k v tl, p :: rest => p.1 = k ∧ Matches fs v p.2 ∧ MatchesMap fs tl rest
  | _, _ => False
end

/-- Pointwise matching of a sequence's elements with loaded results. -/
def MatchesAll (fs : FileSystem) : FileTreeList → List AudioData → Prop
  | .nil, [] => True
  | .cons hd tl, d :: rest => Matches fs hd d ∧ MatchesAll fs tl rest
  | _, _ => False

theorem npStack_some {ds : List AudioData} {a : NDArray} (h : npStack ds = some a) :
    ∃ parts, toArrs ds = some parts ∧ ∃ s, (∀ p ∈ parts, p.shape = s)
      ∧ a = ⟨parts.length :: s, (parts.map NDArray.data).flatten⟩ := by
  unfold npStack at h
  cases ht : toArrs ds with
  | none => rw [ht] at h; simp at h
  | some parts =>
    rw [ht] at h
    cases parts with
    | nil =>
      simp only [Option.some.injEq] at h
      exact ⟨[], rfl, [], by simp, by simp [← h]⟩
    | cons p rest =>
      simp only [] at h
      cases hif : rest.all (fun b => decide (b.shape = p.shape)) with
      | false => rw [hif] at h; simp at h
      | true =>
        rw [hif] at h
        simp only [if_true, Option.some.injEq] at h
        refine ⟨p :: rest, rfl, p.shape, ?_, h.symm⟩
        intro q hq
        rcases List.mem_cons.mp hq with hq | hq
        · rw [hq]
        · exact of_decide_eq_true (List.all_eq_true.mp hif q hq)

theorem matchesSeq_of_toArrs (fs : FileSystem) :
    ∀ (l : FileTreeList) (ds : List AudioData) (parts : List NDArray),
      MatchesAll fs l ds → toArrs ds = some parts →
      MatchesSeq fs l parts ∧ parts.length = l.length
  | .nil, ds, parts, hall, ht => by
    cases ds with
    | nil =>
      simp only [toArrs, Option.some.injEq] at ht
      rw [← ht]
      exact ⟨trivial, rfl⟩
    | cons d rest => simp [MatchesAll] at hall
  | .cons hd tl, ds, parts, hall, ht => by
    cases ds with
    | nil => simp [MatchesAll] at hall
    | cons d rest =>
      obtain ⟨hm, hrest⟩ := hall
      cases d with
      | dict m => simp [toArrs] at ht
      | arr a0 =>
        simp only [toArrs] at ht
        cases hrec : toArrs rest with
        | none => rw [hrec] at ht; simp at ht
        | some prest =>
          rw [hrec] at ht
          simp only [Option.some.injEq] at ht
          obtain ⟨hseq, hlen⟩ := matchesSeq_of_toArrs fs tl rest prest hrest hrec
          rw [← ht]
          refine ⟨⟨hm, hseq⟩, ?_⟩
          simp only [List.length_cons, FileTreeList.length, hlen]
          omega

mutual
theorem matches_of_read (fs : FileSystem) : ∀ (t : FileTree) (d : AudioData),
    rec_audio_read fs t = .ok d → Matches fs t d
  | .leaf f, d, h => by
    unfold rec_audio_read at h
    cases hf : fs f with
    | none => rw [hf] at h; simp at h
    | some native =>
      rw [hf] at h
      simp only [Except.ok.injEq] at h
      exact ⟨native, hf, h.symm, rfl⟩
  | .seq l, d, h => by
    unfold rec_audio_read at h
    cases hl : rec_read_list fs l with
    | error e => rw [hl] at h; simp at h
    | ok ds =>
      rw [hl] at h
      simp only [] at h
      cases hs : npStack ds with
      | none => rw [hs] at h; simp at h
      | some a =>
        rw [hs] at h
        simp only [Except.ok.injEq] at h
        obtain ⟨parts, ht, s, hsh, ha⟩ := npStack_some hs
        obtain ⟨hseq, hlen⟩ :=
          matchesSeq_of_toArrs fs l ds parts (matches_all_of_read fs l ds hl) ht
        exact ⟨parts, s, hseq, hlen, hsh, by rw [← h, ha]⟩
  | .mapping m, d, h => by
    unfold rec_audio_read at h
    cases hm : rec_read_map fs m with
    | error e => rw [hm] at h; simp at h
    | ok kvs =>
      rw [hm] at h
      simp only [Except.ok.injEq] at h
      exact ⟨kvs, h.symm, matches_map_of_read fs m kvs hm⟩

theorem matches_all_of_read (fs : FileSystem) : ∀ (l : FileTreeList) (ds : List AudioData),
    rec_read_list fs l = .ok ds → MatchesAll fs l ds
  | .nil, ds, h => by
    unfold rec_read_list at h
    simp only [Except.ok.injEq] at h
    rw [← h]
    trivial
  | .cons hd tl, ds, h => by
    unfold rec_read_list at h
    cases hh : rec_audio_read fs hd with
    | error e => rw [hh] at h; simp at h
    | ok d0 =>
      rw [hh] at h
      simp only [] at h
      cases htl : rec_read_list fs tl with
      | error e => rw [htl] at h; simp at h
      | ok drest =>
        rw [htl] at h
        simp only [Except.ok.injEq] at h
        rw [← h]
        exact ⟨matches_of_read fs hd d0 hh, matches_all_of_read fs tl drest htl⟩

theorem matches_map_of_read (fs : FileSystem) :
    ∀ (m : FileTreeMap) (kvs : List (String × AudioData)),
      rec_read_map fs m = .ok kvs → MatchesMap fs m kvs
  | .nil, kvs, h => by
    unfold rec_read_map at h
    simp only [Except.ok.injEq] at h
    rw [← h]
    trivial
  | .cons k v tl, kvs, h => by
    unfold rec_read_map at h
    cases hv : rec_audio_read fs v with
    | error e => rw [hv] at h; simp at h
    | ok d0 =>
      rw [hv] at h
      simp only [] at h
      cases htl : rec_read_map fs tl with
      | error e => rw [htl] at h; simp at h
      | ok drest =>
        rw [htl] at h
        simp only [Except.ok.injEq] at h
        rw [← h]
        exact ⟨rfl, matches_of_read fs v d0 hv, matches_map_of_read fs tl drest htl⟩
end

/-!
Concrete fixtures used by witnesses and counterexamples.
-/

/-- A small file system: a 2-channel observation, two mono dry sources, two
single-channel per-speaker reverberation components, a noise file. -/
def fsW : FileSystem := fun f =>
  if f = "o" then some ⟨[2, 2], [1, 2, 3, 4]⟩
  else if f = "s1" then some ⟨[3], [1, 2, 3]⟩
  else if f = "s2" then some ⟨[3], [4, 5, 6]⟩
  else if f = "e1" then some ⟨[2, 1], [1, 2]⟩
  else if f = "e2" then some ⟨[2, 1], [3, 4]⟩
  else if f = "t1" then some ⟨[2, 1], [10, 20]⟩
  else if f = "t2" then some ⟨[2, 1], [30, 40]⟩
  else if f = "n" then some ⟨[2, 2], [5, 6, 7, 8]⟩
  else none

/-- A file system where every read fails. -/
def fsBad : FileSystem := fun _ => none

/-- A two-speaker example over `fsW`. -/
def exW : Example :=
  { audio_path :=
      { observation := .leaf "o"
        speech_source := .seq (.cons (.leaf "s1") (.cons (.leaf "s2") .nil))
        speech_reverberation_early := .seq (.cons (.leaf "e1") (.cons (.leaf "e2") .nil))
        speech_reverberation_tail := .seq (.cons (.leaf "t1") (.cons (.leaf "t2") .nil))
        noise_image := .leaf "n"
        rir := .leaf "missing" }
    offset := [0, 1]
    num_samples_observation := 4
    num_samples_speech_source := [3, 3]
    num_speakers := 2
    meta := [("example_id", "w")]
    audio_data := none }

/-- The default reader configuration (`AudioReader()`), after `__post_init__`. -/
def rW : AudioReader := post_init {}

/-- A one-record store holding `exW` at every address. -/
def storeW : Nat → Example := fun _ => exW

/-- The bundle that `AudioReader()` produces for `exW` over `fsW`. -/
def bundleW : Bundle :=
  [("observation", .arr ⟨[2, 2], [1, 3, 2, 4]⟩),
   ("speech_source", .arr ⟨[2, 4], [1, 2, 3, 0, 0, 4, 5, 6]⟩),
   ("speech_reverberation_early", .arr ⟨[2, 1, 2], [1, 2, 3, 4]⟩),
   ("speech_reverberation_tail", .arr ⟨[2, 1, 2], [10, 20, 30, 40]⟩),
   ("speech_image", .arr ⟨[2, 1, 2], [11, 22, 33, 44]⟩),
   ("noise_image", .arr ⟨[2, 2], [5, 7, 6, 8]⟩)]

/-- The store after calling the reader on address 0 of `storeW`. -/
def storeW2 : Nat → Example := fun a =>
  if a = 0 then { exW with audio_data := some bundleW } else storeW a

theorem buildData_exW : buildData rW fsW exW = .ok bundleW := by
  rfl

theorem post_init_speech_image (r : AudioReader) :
    (post_init r).speech_image = r.speech_image := by
  unfold post_init
  split <;> rfl

theorem post_init_forces (r : AudioReader) (h : (post_init r).speech_image = true) :
    (post_init r).speech_reverberation_early = true
      ∧ (post_init r).speech_reverberation_tail = true := by
  rw [post_init_speech_image] at h
  unfold post_init
  rw [h]
  exact ⟨rfl, rfl⟩

/-!
Claim theorems.
-/

/-- C3: whenever `speech_image` is requested, dataclass construction
(`__post_init__`) forces both `speech_reverberation_early` and
`speech_reverberation_tail` to `true`, regardless of the values passed for
those two flags. -/
theorem c3_speech_image_forces_components (r : AudioReader) (h : r.speech_image = true) :
    (post_init r).speech_reverberation_early = true
      ∧ (post_init r).speech_reverberation_tail = true := by
  unfold post_init
  rw [h]
  exact ⟨rfl, rfl⟩

/-- C3 witness: both component flags are forced on even when both were passed
as `false`. -/
theorem c3_witness :
    (⟨true, true, true, false, false, true, true, false⟩ : AudioReader).speech_image = true
    ∧ ((post_init ⟨true, true, true, false, false, true, true, false⟩).speech_reverberation_early
         = true
       ∧ (post_init ⟨true, true, true, false, false, true, true, false⟩).speech_reverberation_tail
         = true) :=
  ⟨rfl, c3_speech_image_forces_components ⟨true, true, true, false, false, true, true, false⟩ rfl⟩

/-- C8: constructing `SmsWsj` with no explicit catalog path fails at
construction time with the configuration-error kind when the environment
variable `SMS_WSJ_JSON` is absent. -/
theorem c8_missing_json_fails (env : Env) (h : env "SMS_WSJ_JSON" = none) :
    SmsWsj.init env none = .error .configurationError := by
  unfold SmsWsj.init default_json_path
  rw [h]

/-- C8 witness: the empty environment. -/
theorem c8_witness :
    ((fun _ => none : Env) "SMS_WSJ_JSON" = none)
    ∧ SmsWsj.init (fun _ => none) none = .error .configurationError :=
  ⟨rfl, c8_missing_json_fails (fun _ => none) rfl⟩

/-- C6: for each speaker row of the Synchronizer (source `x` of length `L`,
offset `o`, target length `T`, `lo = max 0 (-o)`, `hi = min L (T - o)`): the
row has length `T`; position `t` carries `x[t - o]` exactly when
`o + lo ≤ t < o + hi` and is zero everywhere else (so `x[lo:hi]` sits at
`[o+lo, o+hi)` and with a negative offset the leading out-of-window samples
are dropped, not wrapped); and when `hi ≤ lo` the row is all zeros without
an error. -/
theorem c6_syncRow_placement (x : List Int) (o : Int) (T : Nat) :
    (syncRow x o T).length = T
    ∧ (∀ t : Nat, t < T → (syncRow x o T).getD t 0 =
        if o + max 0 (-o) ≤ (t : Int)
            ∧ (t : Int) < o + min ((x.length : Int)) ((T : Int) - o)
        then x.getD (((t : Int) - o)).toNat 0 else 0)
    ∧ (min ((x.length : Int)) ((T : Int) - o) ≤ max 0 (-o) →
        syncRow x o T = List.replicate T 0) :=
  ⟨syncRow_length x o T, fun t ht => syncRow_getD x o T t ht,
   fun h => syncRow_all_zero x o T h⟩

/-- C6 witness: source length 5, offset −2, target length 3 — the spec's
negative-offset example: source sample 2 lands at output position 0; the row
has length 3. -/
theorem c6_witness :
    (syncRow [10, 20, 30, 40, 50] (-2) 3).length = 3
    ∧ (syncRow [10, 20, 30, 40, 50] (-2) 3).getD 0 0 = 30 := by
  refine ⟨(c6_syncRow_placement [10, 20, 30, 40, 50] (-2) 3).1, ?_⟩
  have h := (c6_syncRow_placement [10, 20, 30, 40, 50] (-2) 3).2.1 0 (by decide)
  rw [if_pos (by decide)] at h
  simpa using h

/-- A file system with a 2-channel early component and a 1-channel tail
component for the same example: the shapes differ but are
broadcast-compatible. -/
def fsC2 : FileSystem := fun f =>
  if f = "e" then some ⟨[2, 2], [1, 2, 3, 4]⟩
  else if f = "t" then some ⟨[2, 1], [10, 20]⟩
  else none

/-- The example over `fsC2` (only the reverberation components are read). -/
def exC2 : Example :=
  { audio_path :=
      { observation := .leaf "x"
        speech_source := .leaf "x"
        speech_reverberation_early := .leaf "e"
        speech_reverberation_tail := .leaf "t"
        noise_image := .leaf "x"
        rir := .leaf "x" }
    offset := []
    num_samples_observation := 0
    num_samples_speech_source := []
    num_speakers := 0
    meta := []
    audio_data := none }

/-- A reader requesting only the speech image (construction then forces both
reverberation components on). -/
def rC2 : AudioReader := post_init ⟨false, false, false, false, false, true, false, false⟩

/-- A one-record store holding `exC2`. -/
def storeC2 : Nat → Example := fun _ => exC2

/-- C2 counterexample: the loaded early array has shape `(2, 2)` and the
loaded tail array shape `(1, 2)` — the shapes differ — yet composing the
speech image does not fail: numpy broadcasting silently produces a `(2, 2)`
speech image. -/
theorem c2_counterexample :
    rec_audio_read fsC2 exC2.audio_path.speech_reverberation_early
      = .ok (.arr ⟨[2, 2], [1, 3, 2, 4]⟩)
    ∧ rec_audio_read fsC2 exC2.audio_path.speech_reverberation_tail
      = .ok (.arr ⟨[1, 2], [10, 20]⟩)
    ∧ ([2, 2] : List Nat) ≠ [1, 2]
    ∧ buildData rC2 fsC2 exC2 = .ok
        [("speech_reverberation_early", .arr ⟨[2, 2], [1, 3, 2, 4]⟩),
         ("speech_reverberation_tail", .arr ⟨[1, 2], [10, 20]⟩),
         ("speech_image", .arr ⟨[2, 2], [11, 23, 12, 24]⟩)] :=
  ⟨rfl, rfl, by decide, rfl⟩

/-- C2 amended: composing the speech image fails — with numpy's ValueError —
exactly when the two loaded component shapes are not broadcast-compatible;
component pairs whose shapes differ but are broadcast-compatible are
silently broadcast to the common shape instead of failing. -/
theorem c2_compose_broadcast_amended (r : AudioReader) (data : Bundle) (e t : NDArray)
    (hf : r.speech_image = true)
    (he : List.lookup "speech_reverberation_early" data = some (.arr e))
    (ht : List.lookup "speech_reverberation_tail" data = some (.arr t)) :
    (broadcastShape e.shape t.shape = none →
      stepSpeechImage r data = .error (.read .valueError))
    ∧ (∀ s, broadcastShape e.shape t.shape = some s →
        ∃ img, NDArray.add e t = .ok img ∧ img.shape = s
          ∧ stepSpeechImage r data = .ok (data ++ [("speech_image", .arr img)])) := by
  unfold stepSpeechImage
  rw [hf]
  simp only [if_true]
  rw [he, ht]
  simp only []
  constructor
  · intro hb
    have hadd : NDArray.add e t = .error .valueError := by
      unfold NDArray.add
      rw [hb]
    rw [hadd]
  · intro s hs
    have hadd : NDArray.add e t = .ok
        ⟨s, (List.range s.prod).map (fun k =>
          e.broadcastGet s.length (unflattenIndex s k)
            + t.broadcastGet s.length (unflattenIndex s k))⟩ := by
      unfold NDArray.add
      rw [hs]
    rw [hadd]
    exact ⟨_, rfl, rfl, rfl⟩

/-- C2 witness for the amended claim: shapes `(2,)` and `(3,)` are not
broadcast-compatible, and composing fails with the ValueError kind. -/
theorem c2_witness :
    stepSpeechImage rC2
      [("speech_reverberation_early", .arr ⟨[2], [1, 2]⟩),
       ("speech_reverberation_tail", .arr ⟨[3], [1, 2, 3]⟩)]
      = .error (.read .valueError) :=
  (c2_compose_broadcast_amended rC2
    [("speech_reverberation_early", .arr ⟨[2], [1, 2]⟩),
     ("speech_reverberation_tail", .arr ⟨[3], [1, 2, 3]⟩)]
    ⟨[2], [1, 2]⟩ ⟨[3], [1, 2, 3]⟩ rfl rfl rfl).1 rfl

theorem lookup_back {k key : String} {xs d' : Bundle} (hne : (k == key) = false)
    (hc : d' = xs ∨ ∃ v, d' = xs ++ [(key, v)]) :
    List.lookup k d' = List.lookup k xs := by
  rcases hc with h | ⟨v, h⟩ <;> subst h
  · rfl
  · exact lookup_append_single_ne hne

theorem mem_of_append_cases {xs d' : Bundle} {key : String}
    (hc : d' = xs ∨ ∃ v, d' = xs ++ [(key, v)]) {p : String × AudioData} (hp : p ∈ d') :
    p ∈ xs ∨ p.1 = key := by
  rcases hc with h | ⟨v, h⟩ <;> subst h
  · exact .inl hp
  · rcases List.mem_append.mp hp with h | h
    · exact .inl h
    · rw [List.mem_singleton] at h
      right
      rw [h]

theorem genStep_ok_cases_simple {flag : Bool} {key : String} {res : Except ReadErr AudioData}
    {data d' : Bundle} (h : genStep flag key res data = .ok d') :
    d' = data ∨ ∃ v, d' = data ++ [(key, v)] :=
  (genStep_ok_cases h).imp id (fun hv => ⟨hv.choose, hv.choose_spec.2⟩)

/-- C4: when the speech image is produced together with both reverberation
components, the bundled `speech_image` array is the elementwise sum of the
loaded `speech_reverberation_early` and `speech_reverberation_tail` arrays:
same shape, and at every (row-major) position the sum of the two component
samples — covering every speaker, channel and sample. -/
theorem c4_speech_image_is_sum (r : AudioReader) (fs : FileSystem) (ex : Example)
    (data : Bundle) (e t : NDArray)
    (hok : buildData r fs ex = .ok data)
    (hf : r.speech_image = true)
    (he : List.lookup "speech_reverberation_early" data = some (.arr e))
    (ht : List.lookup "speech_reverberation_tail" data = some (.arr t))
    (hsh : e.shape = t.shape) :
    ∃ img : NDArray, List.lookup "speech_image" data = some (.arr img)
      ∧ img.shape = e.shape
      ∧ ∀ k : Nat, k < e.shape.prod →
          img.data.getD k 0 = e.data.getD k 0 + t.data.getD k 0 := by
  obtain ⟨d1, d2, d3, d4, d5, d6, h1, h2, h3, h4, h5, h6, h7⟩ := buildData_ok_decomp hok
  rw [stepObservation_eq] at h1
  rw [stepEarly_eq] at h3
  rw [stepTail_eq] at h4
  rw [stepNoise_eq] at h6
  rw [stepRir_eq] at h7
  have hc1 := genStep_ok_cases_simple h1
  have hc2 := stepSpeechSource_ok_cases h2
  have hc3 := genStep_ok_cases_simple h3
  have hc4 := genStep_ok_cases_simple h4
  have hc6 := genStep_ok_cases_simple h6
  have hc7 := genStep_ok_cases_simple h7
  obtain ⟨e', t', img, he4, ht4, hadd, hd5⟩ := stepSpeechImage_ok_true hf h5
  -- trace the final lookups back to the state before the speech-image statement
  have hearly : List.lookup "speech_reverberation_early" data = some (.arr e') := by
    rw [lookup_back (by decide) hc7, lookup_back (by decide) hc6, hd5,
      lookup_append_single_ne (by decide), he4]
  have htail : List.lookup "speech_reverberation_tail" data = some (.arr t') := by
    rw [lookup_back (by decide) hc7, lookup_back (by decide) hc6, hd5,
      lookup_append_single_ne (by decide), ht4]
  rw [hearly] at he
  rw [htail] at ht
  have hee : e' = e := by simpa using he
  have htt : t' = t := by simpa using ht
  rw [hee, htt] at hadd
  -- the speech-image key is fresh before its statement runs
  have hkeys : ∀ p ∈ d4, p.1 = "observation" ∨ p.1 = "speech_source"
      ∨ p.1 = "speech_reverberation_early" ∨ p.1 = "speech_reverberation_tail" := by
    intro p hp
    rcases mem_of_append_cases hc4 hp with hp | hk
    · rcases mem_of_append_cases hc3 hp with hp | hk
      · rcases mem_of_append_cases hc2 hp with hp | hk
        · rcases mem_of_append_cases hc1 hp with hp | hk
          · simp at hp
          · exact .inl hk
        · exact .inr (.inl hk)
      · exact .inr (.inr (.inl hk))
    · exact .inr (.inr (.inr hk))
  have himg4 : List.lookup "speech_image" d4 = none := by
    apply lookup_of_forall_ne
    intro p hp
    rcases hkeys p hp with h | h | h | h <;> rw [h] <;> decide
  have himg : List.lookup "speech_image" data = some (.arr img) := by
    rw [lookup_back (by decide) hc7, lookup_back (by decide) hc6, hd5,
      lookup_append_of_none himg4]
    rfl
  rw [add_of_shape_eq hsh] at hadd
  have himgeq : img = ⟨e.shape, (List.range e.shape.prod).map
      (fun k => e.data.getD k 0 + t.data.getD k 0)⟩ := (Except.ok.inj hadd).symm
  refine ⟨img, himg, by rw [himgeq], ?_⟩
  intro k hk
  rw [himgeq]
  exact getD_range_map hk

/-- C4 witness: the default reader over the two-speaker fixture — the
speech image at flat position 3 is the sum of the component samples there. -/
theorem c4_witness :
    ∃ img : NDArray,
      List.lookup "speech_image" bundleW = some (.arr img)
      ∧ img.shape = (⟨[2, 1, 2], [1, 2, 3, 4]⟩ : NDArray).shape
      ∧ ∀ k : Nat, k < (⟨[2, 1, 2], [1, 2, 3, 4]⟩ : NDArray).shape.prod →
          img.data.getD k 0
            = (⟨[2, 1, 2], [1, 2, 3, 4]⟩ : NDArray).data.getD k 0
              + (⟨[2, 1, 2], [10, 20, 30, 40]⟩ : NDArray).data.getD k 0 :=
  c4_speech_image_is_sum rW fsW exW bundleW ⟨[2, 1, 2], [1, 2, 3, 4]⟩
    ⟨[2, 1, 2], [10, 20, 30, 40]⟩ buildData_exW rfl rfl rfl rfl

/-- C5: with `speech_source` and `sync_speech_source` both enabled, the
loaded dry sources are passed through the Synchronizer with the example's
`offset` and `num_samples.observation` as target length, and the bundled
`speech_source` array has shape `(num_speakers, num_samples.observation)`. -/
theorem c5_sync_speech_source (r : AudioReader) (fs : FileSystem) (ex : Example)
    (data : Bundle) (a : NDArray)
    (hok : buildData r fs ex = .ok data)
    (hss : r.speech_source = true) (hsync : r.sync_speech_source = true)
    (hread : rec_audio_read fs ex.audio_path.speech_source = .ok (.arr a))
    (hshape : a.shape.head? = some ex.num_speakers)
    (hoff : ex.offset.length = ex.num_speakers) :
    List.lookup "speech_source" data
      = some (.arr (ofRows (synchronize_speech_source a.rows ex.offset
          ex.num_samples_observation) ex.num_samples_observation))
    ∧ (ofRows (synchronize_speech_source a.rows ex.offset ex.num_samples_observation)
        ex.num_samples_observation).shape
      = [ex.num_speakers, ex.num_samples_observation] := by
  obtain ⟨d1, d2, d3, d4, d5, d6, h1, h2, h3, h4, h5, h6, h7⟩ := buildData_ok_decomp hok
  rw [stepObservation_eq] at h1
  rw [stepEarly_eq] at h3
  rw [stepTail_eq] at h4
  rw [stepNoise_eq] at h6
  rw [stepRir_eq] at h7
  have hc1 := genStep_ok_cases_simple h1
  have hc3 := genStep_ok_cases_simple h3
  have hc4 := genStep_ok_cases_simple h4
  have hc5 := stepSpeechImage_ok_cases h5
  have hc6 := genStep_ok_cases_simple h6
  have hc7 := genStep_ok_cases_simple h7
  rw [stepSpeechSource_of_sync hss hsync hread] at h2
  have hd2 := Except.ok.inj h2
  have hnone : List.lookup "speech_source" d1 = none := by
    apply lookup_of_forall_ne
    intro p hp
    rcases mem_of_append_cases hc1 hp with hp | hk
    · simp at hp
    · rw [hk]; decide
  have hd2l : List.lookup "speech_source" d2
      = some (.arr (ofRows (synchronize_speech_source a.rows ex.offset
          ex.num_samples_observation) ex.num_samples_observation)) := by
    rw [← hd2, lookup_append_of_none hnone]
    rfl
  have hfinal : List.lookup "speech_source" data
      = some (.arr (ofRows (synchronize_speech_source a.rows ex.offset
          ex.num_samples_observation) ex.num_samples_observation)) := by
    rw [lookup_back (by decide) hc7, lookup_back (by decide) hc6,
      lookup_back (by decide) hc5, lookup_back (by decide) hc4,
      lookup_back (by decide) hc3, hd2l]
  have hrows : a.rows.length = ex.num_speakers := by
    cases hsp : a.shape with
    | nil => rw [hsp] at hshape; simp at hshape
    | cons n rest =>
      rw [hsp] at hshape
      simp only [List.head?_cons, Option.some.injEq] at hshape
      unfold NDArray.rows
      rw [hsp]
      simp [hshape]
  have hlen : (synchronize_speech_source a.rows ex.offset
      ex.num_samples_observation).length = ex.num_speakers := by
    unfold synchronize_speech_source
    rw [List.length_map, List.length_zip, hrows, hoff, Nat.min_self]
  exact ⟨hfinal, by simp [ofRows, hlen]⟩

/-- C5 witness: the two-speaker fixture — the synchronized `speech_source`
entry of the produced bundle has shape `(2, 4)`. -/
theorem c5_witness :
    List.lookup "speech_source" bundleW
      = some (.arr (ofRows (synchronize_speech_source
          (NDArray.rows ⟨[2, 3], [1, 2, 3, 4, 5, 6]⟩) exW.offset
          exW.num_samples_observation) exW.num_samples_observation))
    ∧ (ofRows (synchronize_speech_source (NDArray.rows ⟨[2, 3], [1, 2, 3, 4, 5, 6]⟩)
        exW.offset exW.num_samples_observation) exW.num_samples_observation).shape
      = [exW.num_speakers, exW.num_samples_observation] :=
  c5_sync_speech_source rW fsW exW bundleW ⟨[2, 3], [1, 2, 3, 4, 5, 6]⟩
    buildData_exW rfl rfl rfl rfl rfl

theorem stepSpeechSource_ok_true {r : AudioReader} {fs ex data d'}
    (hf : r.speech_source = true) (h : stepSpeechSource r fs ex data = .ok d') :
    ∃ v, rec_audio_read fs ex.audio_path.speech_source = .ok v
      ∧ ∃ w, d' = data ++ [("speech_source", w)] := by
  unfold stepSpeechSource at h
  rw [hf] at h
  simp only [if_true] at h
  cases hr : rec_audio_read fs ex.audio_path.speech_source with
  | error e => rw [hr] at h; simp at h
  | ok a =>
    rw [hr] at h
    cases hs : r.sync_speech_source with
    | false => rw [hs] at h; simp at h; exact ⟨a, rfl, a, h.symm⟩
    | true =>
      rw [hs] at h
      simp only [if_true] at h
      cases hsy : syncAudio a ex.offset ex.num_samples_observation with
      | error e => rw [hsy] at h; simp at h
      | ok a2 => rw [hsy] at h; simp at h; exact ⟨a, rfl, a2, h.symm⟩

theorem lookup_isSome_forward {k key : String} {xs d' : Bundle}
    (hc : d' = xs ∨ ∃ v, d' = xs ++ [(key, v)])
    (h : (List.lookup k xs).isSome) : (List.lookup k d').isSome := by
  rcases hc with rfl | ⟨v, rfl⟩
  · exact h
  · cases hx : List.lookup k xs with
    | none => rw [hx] at h; simp at h
    | some w => rw [lookup_append_of_some hx]; rfl

theorem call_ok_reads (r : AudioReader) (fs : FileSystem) (store : Nat → Example)
    (addr : Nat) (p : (Nat → Example) × Nat)
    (hp : AudioReader.call r fs store addr = .ok p) :
    ∃ data, buildData r fs (store addr) = .ok data
      ∧ (r.observation = true →
          (∃ v, rec_audio_read fs (store addr).audio_path.observation = .ok v)
          ∧ (List.lookup "observation" data).isSome)
      ∧ (r.speech_source = true →
          (∃ v, rec_audio_read fs (store addr).audio_path.speech_source = .ok v)
          ∧ (List.lookup "speech_source" data).isSome)
      ∧ (r.speech_reverberation_early = true →
          (∃ v, rec_audio_read fs (store addr).audio_path.speech_reverberation_early = .ok v)
          ∧ (List.lookup "speech_reverberation_early" data).isSome)
      ∧ (r.speech_reverberation_tail = true →
          (∃ v, rec_audio_read fs (store addr).audio_path.speech_reverberation_tail = .ok v)
          ∧ (List.lookup "speech_reverberation_tail" data).isSome)
      ∧ (r.noise_image = true →
          (∃ v, rec_audio_read fs (store addr).audio_path.noise_image = .ok v)
          ∧ (List.lookup "noise_image" data).isSome)
      ∧ (r.rir = true →
          (∃ v, rec_audio_read fs (store addr).audio_path.rir = .ok v)
          ∧ (List.lookup "rir" data).isSome) := by
  unfold AudioReader.call at hp
  cases hb : buildData r fs (store addr) with
  | error e => rw [hb] at hp; simp at hp
  | ok data =>
  refine ⟨data, rfl, ?_⟩
  obtain ⟨d1, d2, d3, d4, d5, d6, h1, h2, h3, h4, h5, h6, h7⟩ := buildData_ok_decomp hb
  rw [stepObservation_eq] at h1
  rw [stepEarly_eq] at h3
  rw [stepTail_eq] at h4
  rw [stepNoise_eq] at h6
  rw [stepRir_eq] at h7
  have hc1 := genStep_ok_cases_simple h1
  have hc2 := stepSpeechSource_ok_cases h2
  have hc3 := genStep_ok_cases_simple h3
  have hc4 := genStep_ok_cases_simple h4
  have hc5 := stepSpeechImage_ok_cases h5
  have hc6 := genStep_ok_cases_simple h6
  have hc7 := genStep_ok_cases_simple h7
  refine ⟨?_, ?_, ?_, ?_, ?_, ?_⟩
  · intro hf
    obtain ⟨v, hv, hd⟩ := genStep_ok_true hf h1
    refine ⟨⟨v, hv⟩, ?_⟩
    subst hd
    obtain ⟨w, hw⟩ := @lookup_append_single_self String AudioData _ _ "observation" [] v
    exact lookup_isSome_forward hc7 (lookup_isSome_forward hc6 (lookup_isSome_forward hc5
      (lookup_isSome_forward hc4 (lookup_isSome_forward hc3 (lookup_isSome_forward hc2
        (by rw [hw]; rfl))))))
  · intro hf
    obtain ⟨v, hv, w, hd⟩ := stepSpeechSource_ok_true hf h2
    refine ⟨⟨v, hv⟩, ?_⟩
    subst hd
    obtain ⟨w2, hw⟩ := @lookup_append_single_self String AudioData _ _ "speech_source" d1 w
    exact lookup_isSome_forward hc7 (lookup_isSome_forward hc6 (lookup_isSome_forward hc5
      (lookup_isSome_forward hc4 (lookup_isSome_forward hc3 (by rw [hw]; rfl)))))
  · intro hf
    obtain ⟨v, hv, hd⟩ := genStep_ok_true hf h3
    refine ⟨⟨v, hv⟩, ?_⟩
    subst hd
    obtain ⟨w, hw⟩ :=
      @lookup_append_single_self String AudioData _ _ "speech_reverberation_early" d2 v
    exact lookup_isSome_forward hc7 (lookup_isSome_forward hc6 (lookup_isSome_forward hc5
      (lookup_isSome_forward hc4 (by rw [hw]; rfl))))
  · intro hf
    obtain ⟨v, hv, hd⟩ := genStep_ok_true hf h4
    refine ⟨⟨v, hv⟩, ?_⟩
    subst hd
    obtain ⟨w, hw⟩ :=
      @lookup_append_single_self String AudioData _ _ "speech_reverberation_tail" d3 v
    exact lookup_isSome_forward hc7 (lookup_isSome_forward hc6 (lookup_isSome_forward hc5
      (by rw [hw]; rfl)))
  · intro hf
    obtain ⟨v, hv, hd⟩ := genStep_ok_true hf h6
    refine ⟨⟨v, hv⟩, ?_⟩
    subst hd
    obtain ⟨w, hw⟩ := @lookup_append_single_self String AudioData _ _ "noise_image" d5 v
    exact lookup_isSome_forward hc7 (by rw [hw]; rfl)
  · intro hf
    obtain ⟨v, hv, hd⟩ := genStep_ok_true hf h7
    refine ⟨⟨v, hv⟩, ?_⟩
    subst hd
    obtain ⟨w, hw⟩ := @lookup_append_single_self String AudioData _ _ "rir" d6 v
    rw [hw]
    rfl

/-- C9: read failures are never caught inside the transform. If the call
succeeds, every enabled stream was actually read successfully and its entry
is present in the bundle (no example is silently produced with a skipped
stream); contrapositively, if reading any enabled stream's files fails, the
per-example transform fails, surfacing an error to the caller. -/
theorem c9_read_errors_propagate (r : AudioReader) (fs : FileSystem)
    (store : Nat → Example) (addr : Nat) :
    (∀ p, AudioReader.call r fs store addr = .ok p →
      ∃ data, buildData r fs (store addr) = .ok data
        ∧ (r.observation = true →
            (∃ v, rec_audio_read fs (store addr).audio_path.observation = .ok v)
            ∧ (List.lookup "observation" data).isSome)
        ∧ (r.speech_source = true →
            (∃ v, rec_audio_read fs (store addr).audio_path.speech_source = .ok v)
            ∧ (List.lookup "speech_source" data).isSome)
        ∧ (r.speech_reverberation_early = true →
            (∃ v, rec_audio_read fs (store addr).audio_path.speech_reverberation_early = .ok v)
            ∧ (List.lookup "speech_reverberation_early" data).isSome)
        ∧ (r.speech_reverberation_tail = true →
            (∃ v, rec_audio_read fs (store addr).audio_path.speech_reverberation_tail = .ok v)
            ∧ (List.lookup "speech_reverberation_tail" data).isSome)
        ∧ (r.noise_image = true →
            (∃ v, rec_audio_read fs (store addr).audio_path.noise_image = .ok v)
            ∧ (List.lookup "noise_image" data).isSome)
        ∧ (r.rir = true →
            (∃ v, rec_audio_read fs (store addr).audio_path.rir = .ok v)
            ∧ (List.lookup "rir" data).isSome))
    ∧ (∀ err : ReadErr,
        ((r.observation = true
            ∧ rec_audio_read fs (store addr).audio_path.observation = .error err)
          ∨ (r.speech_source = true
            ∧ rec_audio_read fs (store addr).audio_path.speech_source = .error err)
          ∨ (r.speech_reverberation_early = true
            ∧ rec_audio_read fs (store addr).audio_path.speech_reverberation_early = .error err)
          ∨ (r.speech_reverberation_tail = true
            ∧ rec_audio_read fs (store addr).audio_path.speech_reverberation_tail = .error err)
          ∨ (r.noise_image = true
            ∧ rec_audio_read fs (store addr).audio_path.noise_image = .error err)
          ∨ (r.rir = true
            ∧ rec_audio_read fs (store addr).audio_path.rir = .error err)) →
        ∃ e, AudioReader.call r fs store addr = .error e) := by
  constructor
  · exact fun p hp => call_ok_reads r fs store addr p hp
  · intro err hd
    cases hc : AudioReader.call r fs store addr with
    | error e => exact ⟨e, rfl⟩
    | ok p =>
      exfalso
      obtain ⟨data, _, f1, f2, f3, f4, f5, f6⟩ := call_ok_reads r fs store addr p hc
      rcases hd with ⟨hf, herr⟩ | ⟨hf, herr⟩ | ⟨hf, herr⟩ | ⟨hf, herr⟩ | ⟨hf, herr⟩ | ⟨hf, herr⟩
      · obtain ⟨⟨v, hv⟩, _⟩ := f1 hf
        rw [herr] at hv
        simp at hv
      · obtain ⟨⟨v, hv⟩, _⟩ := f2 hf
        rw [herr] at hv
        simp at hv
      · obtain ⟨⟨v, hv⟩, _⟩ := f3 hf
        rw [herr] at hv
        simp at hv
      · obtain ⟨⟨v, hv⟩, _⟩ := f4 hf
        rw [herr] at hv
        simp at hv
      · obtain ⟨⟨v, hv⟩, _⟩ := f5 hf
        rw [herr] at hv
        simp at hv
      · obtain ⟨⟨v, hv⟩, _⟩ := f6 hf
        rw [herr] at hv
        simp at hv

/-- C9 witness: over the all-missing file system the default reader's call
fails (here with the IOError kind surfacing from the first read). -/
theorem c9_witness : ∃ e, AudioReader.call rW fsBad storeW 0 = .error e :=
  (c9_read_errors_propagate rW fsBad storeW 0).2 .ioError (.inl ⟨rfl, rfl⟩)

theorem buildData_post_init_ne_keyError (r0 : AudioReader) (fs : FileSystem) (ex : Example) :
    buildData (post_init r0) fs ex ≠ .error .keyError := by
  intro h
  unfold buildData at h
  rcases andThen_error h with h1 | ⟨d1, h1, h⟩
  · rw [stepObservation_eq] at h1
    obtain ⟨_, re, hre, _⟩ := genStep_error h1
    exact Err.noConfusion hre
  rcases andThen_error h with h2 | ⟨d2, h2, h⟩
  · exact stepSpeechSource_error_ne_key h2 rfl
  rcases andThen_error h with h3 | ⟨d3, h3, h⟩
  · rw [stepEarly_eq] at h3
    obtain ⟨_, re, hre, _⟩ := genStep_error h3
    exact Err.noConfusion hre
  rcases andThen_error h with h4 | ⟨d4, h4, h⟩
  · rw [stepTail_eq] at h4
    obtain ⟨_, re, hre, _⟩ := genStep_error h4
    exact Err.noConfusion hre
  rcases andThen_error h with h5 | ⟨d5, h5, h⟩
  · cases hf : (post_init r0).speech_image with
    | false => rw [stepSpeechImage_of_false hf] at h5; exact Except.noConfusion h5
    | true =>
      obtain ⟨hfe, hft⟩ := post_init_forces r0 hf
      rw [stepEarly_eq] at h3
      rw [stepTail_eq] at h4
      obtain ⟨v, hv, hd3⟩ := genStep_ok_true hfe h3
      obtain ⟨w, hw, hd4⟩ := genStep_ok_true hft h4
      subst hd3
      subst hd4
      obtain ⟨de, hde⟩ :=
        @lookup_append_single_self String AudioData _ _ "speech_reverberation_early" d2 v
      obtain ⟨dt, hdt⟩ := @lookup_append_single_self String AudioData _ _
        "speech_reverberation_tail" (d2 ++ [("speech_reverberation_early", v)]) w
      exact stepSpeechImage_ne_key_of_lookups (lookup_append_of_some hde) hdt h5
  rcases andThen_error h with h6 | ⟨d6, h6, h⟩
  · rw [stepNoise_eq] at h6
    obtain ⟨_, re, hre, _⟩ := genStep_error h6
    exact Err.noConfusion hre
  · rw [stepRir_eq] at h
    obtain ⟨_, re, hre, _⟩ := genStep_error h
    exact Err.noConfusion hre

/-- C10: for a reader as constructed (dataclass construction runs
`__post_init__` and flags are not modified afterwards), the per-example
transform can never fail with the missing-key error: whenever the
speech-image statement runs, the `speech_reverberation_early` and
`speech_reverberation_tail` entries are already in the bundle, so its two
dictionary lookups cannot fail. -/
theorem c10_speech_image_lookups_never_fail (r0 : AudioReader) (fs : FileSystem)
    (store : Nat → Example) (addr : Nat) :
    AudioReader.call (post_init r0) fs store addr ≠ .error .keyError := by
  intro h
  unfold AudioReader.call at h
  cases hb : buildData (post_init r0) fs (store addr) with
  | error e =>
    rw [hb] at h
    have he : e = .keyError := by simpa using h
    subst he
    exact buildData_post_init_ne_keyError r0 fs (store addr) hb
  | ok data =>
    rw [hb] at h
    exact Except.noConfusion h

/-- C10 witness: a reader constructed with only `speech_image` requested,
over a store whose example the fixture file system can serve. -/
theorem c10_witness :
    AudioReader.call (post_init ⟨false, false, false, false, false, true, false, false⟩)
      fsC2 storeC2 0 ≠ .error .keyError :=
  c10_speech_image_lookups_never_fail
    ⟨false, false, false, false, false, true, false, false⟩ fsC2 storeC2 0

/-- The store after calling a no-stream reader on address 0 of `storeC2`:
the record at the original address now carries an (empty) audio bundle. -/
def storeC1After : Nat → Example := fun a =>
  if a = 0 then { exC2 with audio_data := some [] } else storeC2 a

/-- C1 counterexample: `example['audio_data'] = data; return example`
mutates the record in place — after the call, the record seen through the
original reference (address 0 of the store) has changed: its `audio_data`
field went from `none` to `some …`, so the mutation is visible to any other
holder of that record, and the returned reference is the original one. -/
theorem c1_counterexample :
    AudioReader.call (post_init ⟨false, false, false, false, false, false, false, false⟩)
      fsC2 storeC2 0 = .ok (storeC1After, 0)
    ∧ (storeC1After 0).audio_data ≠ (storeC2 0).audio_data := by
  constructor
  · rfl
  · simp [storeC1After, storeC2, exC2]

/-- C1 amended: the transform returns the same record reference, augmented
in place with the produced arrays under the new `audio_data` field; every
original field other than `audio_data` is preserved unchanged, and records
at other references are untouched — but the augmentation is an in-place
mutation of the record passed in, visible to other holders of that record,
not a fresh value. -/
theorem c1_call_in_place_amended (r : AudioReader) (fs : FileSystem)
    (store : Nat → Example) (addr : Nat) (st2 : Nat → Example) (a2 : Nat)
    (h : AudioReader.call r fs store addr = .ok (st2, a2)) :
    a2 = addr
    ∧ (∃ data, buildData r fs (store addr) = .ok data
        ∧ st2 addr = { store addr with audio_data := some data })
    ∧ (st2 addr).audio_path = (store addr).audio_path
    ∧ (st2 addr).offset = (store addr).offset
    ∧ (st2 addr).num_samples_observation = (store addr).num_samples_observation
    ∧ (st2 addr).num_samples_speech_source = (store addr).num_samples_speech_source
    ∧ (st2 addr).num_speakers = (store addr).num_speakers
    ∧ (st2 addr).meta = (store addr).meta
    ∧ (∀ b, b ≠ addr → st2 b = store b) := by
  unfold AudioReader.call at h
  cases hb : buildData r fs (store addr) with
  | error e => rw [hb] at h; exact Except.noConfusion h
  | ok data =>
    rw [hb] at h
    simp only [Except.ok.injEq, Prod.mk.injEq] at h
    obtain ⟨hst, ha⟩ := h
    subst ha
    refine ⟨rfl, ⟨data, rfl, ?_⟩, ?_, ?_, ?_, ?_, ?_, ?_, ?_⟩
    · rw [← hst]; simp
    · rw [← hst]; simp
    · rw [← hst]; simp
    · rw [← hst]; simp
    · rw [← hst]; simp
    · rw [← hst]; simp
    · rw [← hst]; simp
    · intro b hb2
      rw [← hst]
      simp [hb2]

/-- C1 witness for the amended claim: the default reader over the
two-speaker fixture. -/
theorem c1_witness :
    (0 : Nat) = 0
    ∧ (∃ data, buildData rW fsW (storeW 0) = .ok data
        ∧ storeW2 0 = { storeW 0 with audio_data := some data })
    ∧ (storeW2 0).audio_path = (storeW 0).audio_path
    ∧ (storeW2 0).offset = (storeW 0).offset
    ∧ (storeW2 0).num_samples_observation = (storeW 0).num_samples_observation
    ∧ (storeW2 0).num_samples_speech_source = (storeW 0).num_samples_speech_source
    ∧ (storeW2 0).num_speakers = (storeW 0).num_speakers
    ∧ (storeW2 0).meta = (storeW 0).meta
    ∧ (∀ b, b ≠ 0 → storeW2 b = storeW b) :=
  c1_call_in_place_amended rW fsW storeW 0 storeW2 0 rfl

/-- C7: loading preserves structure — a successfully loaded tree `Matches`
its file-reference tree: a single reference yields the channel-major
transpose of the file-native array (shape reversed); an ordered sequence
yields an array with a new leading dimension of size `len(ref)` stacked
from recursively matching parts; a mapping yields a mapping with identical
keys whose values recursively match. -/
theorem c7_loader_structural_fidelity (fs : FileSystem) (t : FileTree) (d : AudioData)
    (h : rec_audio_read fs t = .ok d) : Matches fs t d :=
  matches_of_read fs t d h

/-- A nested reference tree: a mapping holding a single file and a
two-element sequence of mono files. -/
def treeW : FileTree :=
  .mapping (.cons "obs" (.leaf "o")
    (.cons "spk" (.seq (.cons (.leaf "s1") (.cons (.leaf "s2") .nil))) .nil))

/-- C7 witness: the nested fixture tree loads to a mapping with the same
keys, a transposed `(2, 2)` leaf and a stacked `(2, 3)` sequence. -/
theorem c7_witness :
    Matches fsW treeW
      (.dict [("obs", .arr ⟨[2, 2], [1, 3, 2, 4]⟩),
              ("spk", .arr ⟨[2, 3], [1, 2, 3, 4, 5, 6]⟩)]) :=
  c7_loader_structural_fidelity fsW treeW
    (.dict [("obs", .arr ⟨[2, 2], [1, 3, 2, 4]⟩),
            ("spk", .arr ⟨[2, 3], [1, 2, 3, 4, 5, 6]⟩)]) rfl
